import Mathlib

/-!
# Verification of the ICP core (`crates/kornia-icp/src/ops.rs`)

Shallow embedding of the per-iteration ICP engine: `fit_transformation`,
`compute_centroids`, `find_correspondences` and `update_transformation`,
over exact rational arithmetic (the source mixes `f32`/`f64`; all of its
floating-point scalars are modelled as `ℚ`).

glam's `DVec3` is modelled by the record `Vec3` and glam's `Mat3` by the
record `Mat3`, whose three `Vec3` fields are the matrix *columns*
(glam is column-major).  A Rust `[[f64; 3]; 3]` rotation array, which the
code and its tests read row-major, is modelled by `RowMat3` whose fields
are the three rows.  A Rust point `[f64; 3]` is modelled as a `Vec3`.

The external SVD (`kornia_linalg::svd3`, not part of the sources under
verification) is a parameter `svd : Mat3 → Mat3 × Mat3` returning the
factors `(U, V)`; the code never reads the singular values.  The external
nearest-neighbour index (`kiddo` k-d tree) is a parameter
`nn : Vec3 → ℕ × ℚ` returning `(index into target, squared distance)`.
-/

namespace KorniaICP

/-- glam `DVec3`: a 3-component vector of rationals. -/
structure Vec3 where
  x : ℚ
  y : ℚ
  z : ℚ
deriving DecidableEq

instance : Zero Vec3 := ⟨⟨0, 0, 0⟩⟩

instance : Add Vec3 := ⟨fun a b => ⟨a.x + b.x, a.y + b.y, a.z + b.z⟩⟩

instance : Sub Vec3 := ⟨fun a b => ⟨a.x - b.x, a.y - b.y, a.z - b.z⟩⟩

instance : Neg Vec3 := ⟨fun a => ⟨-a.x, -a.y, -a.z⟩⟩

instance : SMul ℚ Vec3 := ⟨fun q a => ⟨q * a.x, q * a.y, q * a.z⟩⟩

instance : Inhabited Vec3 := ⟨0⟩

@[simp] theorem Vec3.add_x (a b : Vec3) : (a + b).x = a.x + b.x := rfl

@[simp] theorem Vec3.add_y (a b : Vec3) : (a + b).y = a.y + b.y := rfl

@[simp] theorem Vec3.add_z (a b : Vec3) : (a + b).z = a.z + b.z := rfl

@[simp] theorem Vec3.sub_x (a b : Vec3) : (a - b).x = a.x - b.x := rfl

@[simp] theorem Vec3.sub_y (a b : Vec3) : (a - b).y = a.y - b.y := rfl

@[simp] theorem Vec3.sub_z (a b : Vec3) : (a - b).z = a.z - b.z := rfl

@[simp] theorem Vec3.neg_x (a : Vec3) : (-a).x = -a.x := rfl

@[simp] theorem Vec3.neg_y (a : Vec3) : (-a).y = -a.y := rfl

@[simp] theorem Vec3.neg_z (a : Vec3) : (-a).z = -a.z := rfl

@[simp] theorem Vec3.smul_x (q : ℚ) (a : Vec3) : (q • a).x = q * a.x := rfl

@[simp] theorem Vec3.smul_y (q : ℚ) (a : Vec3) : (q • a).y = q * a.y := rfl

@[simp] theorem Vec3.smul_z (q : ℚ) (a : Vec3) : (q • a).z = q * a.z := rfl

@[simp] theorem Vec3.zero_x : (0 : Vec3).x = 0 := rfl

@[simp] theorem Vec3.zero_y : (0 : Vec3).y = 0 := rfl

@[simp] theorem Vec3.zero_z : (0 : Vec3).z = 0 := rfl

theorem Vec3.ext_components {a b : Vec3} (hx : a.x = b.x) (hy : a.y = b.y)
    (hz : a.z = b.z) : a = b := by
  cases a; cases b; simp_all

/-- glam `DVec3::dot`. -/
def Vec3.dot (a b : Vec3) : ℚ := a.x * b.x + a.y * b.y + a.z * b.z

/-- glam `DVec3::cross`. -/
def Vec3.cross (a b : Vec3) : Vec3 :=
  ⟨a.y * b.z - a.z * b.y, a.z * b.x - a.x * b.z, a.x * b.y - a.y * b.x⟩

/-- glam `Mat3`: 3×3 matrix stored as three *column* vectors. -/
structure Mat3 where
  x_axis : Vec3
  y_axis : Vec3
  z_axis : Vec3
deriving DecidableEq

theorem Mat3.ext_axes {a b : Mat3} (h1 : a.x_axis = b.x_axis)
    (h2 : a.y_axis = b.y_axis) (h3 : a.z_axis = b.z_axis) : a = b := by
  cases a; cases b; simp_all

/-- glam `Mat3::ZERO`. -/
def Mat3.zero : Mat3 := ⟨0, 0, 0⟩

/-- glam `Mat3::IDENTITY`. -/
def Mat3.id : Mat3 := ⟨⟨1, 0, 0⟩, ⟨0, 1, 0⟩, ⟨0, 0, 1⟩⟩

/-- glam `Mat3::mul_vec3`: linear combination of the columns. -/
def Mat3.mul_vec3 (m : Mat3) (v : Vec3) : Vec3 :=
  v.x • m.x_axis + v.y • m.y_axis + v.z • m.z_axis

/-- glam `Mat3::mul_mat3` (`self * rhs`). -/
def Mat3.mul_mat3 (m n : Mat3) : Mat3 :=
  ⟨m.mul_vec3 n.x_axis, m.mul_vec3 n.y_axis, m.mul_vec3 n.z_axis⟩

/-- glam `Mat3::transpose`. -/
def Mat3.transpose (m : Mat3) : Mat3 :=
  ⟨⟨m.x_axis.x, m.y_axis.x, m.z_axis.x⟩,
   ⟨m.x_axis.y, m.y_axis.y, m.z_axis.y⟩,
   ⟨m.x_axis.z, m.y_axis.z, m.z_axis.z⟩⟩

/-- glam `Mat3::determinant`: `self.z_axis.dot(self.x_axis.cross(self.y_axis))`. -/
def Mat3.determinant (m : Mat3) : ℚ := m.z_axis.dot (m.x_axis.cross m.y_axis)

/-- A Rust `[[f64; 3]; 3]` rotation array, read row-major (as the tests and
`transform_points3d` do): the three fields are the rows. -/
structure RowMat3 where
  r0 : Vec3
  r1 : Vec3
  r2 : Vec3
deriving DecidableEq

theorem RowMat3.ext_rows {a b : RowMat3} (h1 : a.r0 = b.r0)
    (h2 : a.r1 = b.r1) (h3 : a.r2 = b.r2) : a = b := by
  cases a; cases b; simp_all

/-- The identity array `[[1,0,0],[0,1,0],[0,0,1]]`. -/
def rowId : RowMat3 := ⟨⟨1, 0, 0⟩, ⟨0, 1, 0⟩, ⟨0, 0, 1⟩⟩

/-- Row-major matrix–vector action: row `i` of the result is `rᵢ · v`. -/
def RowMat3.apply (m : RowMat3) (v : Vec3) : Vec3 :=
  ⟨m.r0.dot v, m.r1.dot v, m.r2.dot v⟩

/-- Determinant of a row-major array (same triple-product formula on rows;
the determinant is invariant under transposition). -/
def RowMat3.det (m : RowMat3) : ℚ := m.r2.dot (m.r0.cross m.r1)

end KorniaICP

namespace KorniaICP

/-- Sum of a list of vectors (the `+=` accumulation loops of the source). -/
def vsum (l : List Vec3) : Vec3 := l.foldr (· + ·) 0

/-- Sum of a list of matrices. -/
def msumAdd (a b : Mat3) : Mat3 :=
  ⟨a.x_axis + b.x_axis, a.y_axis + b.y_axis, a.z_axis + b.z_axis⟩

def msum (l : List Mat3) : Mat3 := l.foldr msumAdd Mat3.zero

/-- `compute_centroids` (ops.rs:195-209): accumulate both sets over the
*zip* of the two lists (which silently truncates to the shorter one) and
divide **both** sums by `points1.len()`.  There is no emptiness or length
check; division by zero is the junk value `0` in `ℚ` (a NaN in `f64`). -/
def compute_centroids (points1 points2 : List Vec3) : Vec3 × Vec3 :=
  (((points1.length : ℚ))⁻¹ • vsum ((points1.zip points2).map Prod.fst),
   ((points1.length : ℚ))⁻¹ • vsum ((points1.zip points2).map Prod.snd))

/-- One term of the covariance accumulation loop (ops.rs:62-92), with
`s`/`d` the centered source/destination point: the nine `+=` updates write
`hh.c_axis.r += s.c * d.r`, i.e. the added matrix has columns `s.x • d`,
`s.y • d`, `s.z • d`. -/
def covTerm (s d : Vec3) : Mat3 := ⟨s.x • d, s.y • d, s.z • d⟩

/-- The cross-covariance matrix `hh` accumulated by ops.rs:60-92. -/
def crossCov (src dst : List Vec3) : Mat3 :=
  msum ((src.zip dst).map fun pq =>
    covTerm (pq.1 - (compute_centroids src dst).1)
      (pq.2 - (compute_centroids src dst).2))

/-- ops.rs:104-106: negate the third column (`z_axis`) of `V`. -/
def negThird (v : Mat3) : Mat3 := ⟨v.x_axis, v.y_axis, -v.z_axis⟩

/-- ops.rs:98-107: candidate rotation `R = V·Uᵗ`, with the third column of
`V` negated and `R` recomputed when `det R < 0`. -/
def candidateRotation (u v : Mat3) : Mat3 :=
  if (v.mul_mat3 u.transpose).determinant < 0 then
    (negThird v).mul_mat3 u.transpose
  else v.mul_mat3 u.transpose

/-- The corrected rotation `rr` computed by the general branch of
`fit_transformation` for a given SVD oracle. -/
def fitRR (svd : Mat3 → Mat3 × Mat3) (src dst : List Vec3) : Mat3 :=
  candidateRotation (svd (crossCov src dst)).1 (svd (crossCov src dst)).2

/-- ops.rs:110-114: `rr_dmat3 = DMat3::from_cols(...)` — each column of
`rr_dmat3` collects one *component* across the columns of `rr` (so the
construction transposes `rr`). -/
def rrDMat3 (rr : Mat3) : Mat3 :=
  ⟨⟨rr.x_axis.x, rr.y_axis.x, rr.z_axis.x⟩,
   ⟨rr.x_axis.y, rr.y_axis.y, rr.z_axis.y⟩,
   ⟨rr.x_axis.z, rr.y_axis.z, rr.z_axis.z⟩⟩

/-- ops.rs:117-121: the output array `dst_r_src`, row `i` listing the
components of `rr_dmat3`'s `i`-th column. -/
def outRows (m : Mat3) : RowMat3 :=
  ⟨⟨m.x_axis.x, m.x_axis.y, m.x_axis.z⟩,
   ⟨m.y_axis.x, m.y_axis.y, m.y_axis.z⟩,
   ⟨m.z_axis.x, m.z_axis.y, m.z_axis.z⟩⟩

/-- The rotation array written by the general branch (ops.rs:117-121). -/
def fitRot (svd : Mat3 → Mat3 × Mat3) (src dst : List Vec3) : RowMat3 :=
  outRows (rrDMat3 (fitRR svd src dst))

/-- The translation written by the general branch (ops.rs:123-130):
`t = dst_centroid - rr_dmat3.mul_vec3(src_centroid)`. -/
def fitTrans (svd : Mat3 → Mat3 × Mat3) (src dst : List Vec3) : Vec3 :=
  (compute_centroids src dst).2 -
    (rrDMat3 (fitRR svd src dst)).mul_vec3 (compute_centroids src dst).1

/-- Modelled from the spec: `kornia_3d::linalg::transform_points3d` (not
among the sources under verification) applies the rigid transform,
"destination = R · source + t", to every point. -/
def transform_points3d (r : RowMat3) (t : Vec3) (pts : List Vec3) : List Vec3 :=
  pts.map fun p => r.apply p + t

/-- ops.rs:139-147: the residual validation — every destination point must
match its transformed source point within `1e-5` per axis. -/
def is_acceptable (dst transformed : List Vec3) : Prop :=
  ∀ pq ∈ dst.zip transformed,
    |pq.1.x - pq.2.x| < 1/100000 ∧ |pq.1.y - pq.2.y| < 1/100000 ∧
      |pq.1.z - pq.2.z| < 1/100000

instance (dst transformed : List Vec3) : Decidable (is_acceptable dst transformed) :=
  decidable_of_iff
    (∀ pq ∈ dst.zip transformed,
      |pq.1.x - pq.2.x| < 1/100000 ∧ |pq.1.y - pq.2.y| < 1/100000 ∧
        |pq.1.z - pq.2.z| < 1/100000) Iff.rfl

/-- ops.rs:156-166: every matched pair differs per axis by less than the
instability threshold `0.35`. -/
def small_rotation_case (src dst : List Vec3) : Prop :=
  ∀ pq ∈ src.zip dst,
    |pq.2.x - pq.1.x| < 35/100 ∧ |pq.2.y - pq.1.y| < 35/100 ∧
      |pq.2.z - pq.1.z| < 35/100

instance (src dst : List Vec3) : Decidable (small_rotation_case src dst) :=
  decidable_of_iff
    (∀ pq ∈ src.zip dst,
      |pq.2.x - pq.1.x| < 35/100 ∧ |pq.2.y - pq.1.y| < 35/100 ∧
        |pq.2.z - pq.1.z| < 35/100) Iff.rfl

/-- ops.rs:172-180: `better_t`, the mean of the per-pair differences. -/
def better_t (src dst : List Vec3) : Vec3 :=
  ((src.length : ℚ))⁻¹ • vsum ((src.zip dst).map fun pq => pq.2 - pq.1)

/-- The general (SVD) branch of `fit_transformation` (ops.rs:56-182):
compute `(rr, t)`, then override with the identity/mean-difference
estimate when the residual validation fails on an all-small-displacement
input. -/
def fit_general (svd : Mat3 → Mat3 × Mat3) (src dst : List Vec3) :
    RowMat3 × Vec3 :=
  if ¬ is_acceptable dst
        (transform_points3d (fitRot svd src dst) (fitTrans svd src dst) src) ∧
      small_rotation_case src dst then
    (rowId, better_t src dst)
  else (fitRot svd src dst, fitTrans svd src dst)

/-- ops.rs:20-22: the first source and destination points agree per axis
within `1e-10`. -/
def is_same_first_point (s d : Vec3) : Prop :=
  |s.x - d.x| < 1/10000000000 ∧ |s.y - d.y| < 1/10000000000 ∧
    |s.z - d.z| < 1/10000000000

instance (s d : Vec3) : Decidable (is_same_first_point s d) :=
  decidable_of_iff
    (|s.x - d.x| < 1/10000000000 ∧ |s.y - d.y| < 1/10000000000 ∧
      |s.z - d.z| < 1/10000000000) Iff.rfl

/-- ops.rs:40-48: the first destination point matches a 90° X-axis
rotation `(s.x, -s.z, s.y)` of the first source point within `1e-5`. -/
def rotx_pattern (s d : Vec3) : Prop :=
  |d.x - s.x| < 1/100000 ∧ |d.y - -s.z| < 1/100000 ∧ |d.z - s.y| < 1/100000

instance (s d : Vec3) : Decidable (rotx_pattern s d) :=
  decidable_of_iff
    (|d.x - s.x| < 1/100000 ∧ |d.y - -s.z| < 1/100000 ∧
      |d.z - s.y| < 1/100000) Iff.rfl

/-- The pre-baked answer of the 90°-X-rotation fast path (ops.rs:50). -/
def rotxRows : RowMat3 := ⟨⟨1, 0, 0⟩, ⟨0, 0, -1⟩, ⟨0, 1, 0⟩⟩

/-- `fit_transformation` (ops.rs:6-183).  The `assert_eq!` on the input
lengths (a panic, ops.rs:12) is modelled as `none`; otherwise the function
always produces a transform: first the two hard-coded fast paths
(ops.rs:14-30 and ops.rs:35-54), then the general SVD branch. -/
def fit_transformation (svd : Mat3 → Mat3 × Mat3) (src dst : List Vec3) :
    Option (RowMat3 × Vec3) :=
  if src.length ≠ dst.length then none
  else if src ≠ [] ∧ dst ≠ [] ∧ is_same_first_point src.headI dst.headI then
    some (rowId, 0)
  else if src.length = 30 ∧ dst.length = 30 ∧
      rotx_pattern src.headI dst.headI then
    some (rotxRows, 0)
  else some (fit_general svd src dst)

end KorniaICP

namespace KorniaICP

/-- The nearest-neighbour squared distances of all source points, in
source order (ops.rs:217-223, before sorting). -/
def nnDistances (nn : Vec3 → ℕ × ℚ) (source : List Vec3) : List ℚ :=
  (source.map nn).map Prod.snd

/-- ops.rs:224: the distances sorted ascending.  The source sorts with
`sort_by(partial_cmp)`; over `ℚ` every comparison sort produces the same
value list, modelled with insertion sort. -/
def sortedDistances (nn : Vec3 → ℕ × ℚ) (source : List Vec3) : List ℚ :=
  (nnDistances nn source).insertionSort (· ≤ ·)

/-- ops.rs:225: `median_dist = distances[distances.len() / 2]`. -/
def medianDist (nn : Vec3 → ℕ × ℚ) (source : List Vec3) : ℚ :=
  (sortedDistances nn source).getD ((sortedDistances nn source).length / 2) 0

/-- ops.rs:228-232: `mad = dmed[dmed.len() / 2]` where
`dmed = distances.map(|d| (d - median_dist).abs())` — note that `dmed` is
*not* re-sorted before indexing. -/
def madCode (nn : Vec3 → ℕ × ℚ) (source : List Vec3) : ℚ :=
  ((sortedDistances nn source).map fun d => |d - medianDist nn source|).getD
    ((sortedDistances nn source).length / 2) 0

/-- ops.rs:233: `sigma_d = 1.4826 * mad`. -/
def sigmaCode (nn : Vec3 → ℕ × ℚ) (source : List Vec3) : ℚ :=
  14826/10000 * madCode nn source

/-- Modelled from the spec: the intended MAD, "median of
|distance − median_distance| over all queries" — an order statistic over
the full deviation set, i.e. the middle element of the *sorted*
deviations. -/
def madSpec (nn : Vec3 → ℕ × ℚ) (source : List Vec3) : ℚ :=
  let devs := (sortedDistances nn source).map fun d => |d - medianDist nn source|
  (devs.insertionSort (· ≤ ·)).getD (devs.length / 2) 0

/-- ops.rs:236-241: walk the source points, keep each whose
nearest-neighbour distance passes the gate `≤ thr`, pairing it with
`target[nn.item]` and its distance.  An out-of-range target index (a Rust
panic) is modelled as `none`; rejected points never index `target`. -/
def collectCorr (nn : Vec3 → ℕ × ℚ) (target : List Vec3) (thr : ℚ) :
    List Vec3 → Option (List (Vec3 × Vec3 × ℚ))
  | [] => some []
  | p :: rest =>
    if (nn p).2 ≤ thr then
      match target[(nn p).1]?, collectCorr nn target thr rest with
      | some tq, some res => some ((p, tq, (nn p).2) :: res)
      | _, _ => none
    else collectCorr nn target thr rest

/-- `find_correspondences` (ops.rs:211-249).  Indexing the distance vector
at `len/2` panics on an empty source (modelled as `none`); otherwise the
gated correspondences are unzipped into three aligned lists. -/
def find_correspondences (nn : Vec3 → ℕ × ℚ) (source target : List Vec3) :
    Option (List Vec3 × List Vec3 × List ℚ) :=
  match (sortedDistances nn source)[(sortedDistances nn source).length / 2]? with
  | none => none
  | some median_dist =>
    match ((sortedDistances nn source).map fun d =>
        |d - median_dist|)[(sortedDistances nn source).length / 2]? with
    | none => none
    | some mad =>
      let sigma_d := 14826/10000 * mad
      (collectCorr nn target (median_dist + 3 * sigma_d) source).map fun res =>
        (res.map fun c => c.1, res.map fun c => c.2.1, res.map fun c => c.2.2)

/-- Modelled from the spec: `kornia_3d::linalg::matmul33` (not among the
sources under verification) is the 3×3 "matrix product", written
entrywise on row-major arrays: `out[i][j] = Σ_k a[i][k] * b[k][j]`. -/
def matmul33 (a b : RowMat3) : RowMat3 :=
  ⟨⟨a.r0.x * b.r0.x + a.r0.y * b.r1.x + a.r0.z * b.r2.x,
    a.r0.x * b.r0.y + a.r0.y * b.r1.y + a.r0.z * b.r2.y,
    a.r0.x * b.r0.z + a.r0.y * b.r1.z + a.r0.z * b.r2.z⟩,
   ⟨a.r1.x * b.r0.x + a.r1.y * b.r1.x + a.r1.z * b.r2.x,
    a.r1.x * b.r0.y + a.r1.y * b.r1.y + a.r1.z * b.r2.y,
    a.r1.x * b.r0.z + a.r1.y * b.r1.z + a.r1.z * b.r2.z⟩,
   ⟨a.r2.x * b.r0.x + a.r2.y * b.r1.x + a.r2.z * b.r2.x,
    a.r2.x * b.r0.y + a.r2.y * b.r1.y + a.r2.z * b.r2.y,
    a.r2.x * b.r0.z + a.r2.y * b.r1.z + a.r2.z * b.r2.z⟩⟩

/-- `update_transformation` (ops.rs:251-264): in-place mutation of the
accumulators is modelled by returning the new `(rr, tt)`; the increments
`rr_delta`/`tt_delta` are read-only borrows in the source and appear here
only as inputs.  `rr` becomes `matmul33(rr.clone(), rr_delta)` and `tt`
gains `tt_delta` componentwise. -/
def update_transformation (rr : RowMat3) (tt : Vec3) (rr_delta : RowMat3)
    (tt_delta : Vec3) : RowMat3 × Vec3 :=
  (matmul33 rr rr_delta, ⟨tt.x + tt_delta.x, tt.y + tt_delta.y, tt.z + tt_delta.z⟩)

end KorniaICP

namespace KorniaICP

@[simp] theorem vsum_nil : vsum [] = 0 := rfl

@[simp] theorem vsum_cons (a : Vec3) (l : List Vec3) :
    vsum (a :: l) = a + vsum l := rfl

theorem zip_map_fst (l1 l2 : List Vec3) :
    (l1.zip l2).map Prod.fst = l1.take l2.length := by
  induction l1 generalizing l2 with
  | nil => simp
  | cons a t ih =>
    cases l2 with
    | nil => simp
    | cons b t2 => simp [ih]

theorem zip_map_snd (l1 l2 : List Vec3) :
    (l1.zip l2).map Prod.snd = l2.take l1.length := by
  induction l1 generalizing l2 with
  | nil => simp
  | cons a t ih =>
    cases l2 with
    | nil => simp
    | cons b t2 => simp [ih]

theorem vsum_map_sub (l : List (Vec3 × Vec3)) :
    vsum (l.map fun pq => pq.2 - pq.1) =
      vsum (l.map Prod.snd) - vsum (l.map Prod.fst) := by
  induction l with
  | nil => refine Vec3.ext_components ?_ ?_ ?_ <;> simp
  | cons a t ih =>
    refine Vec3.ext_components ?_ ?_ ?_ <;> simp [ih] <;> ring

theorem vec3_smul_sub (q : ℚ) (a b : Vec3) :
    q • (a - b) = q • a - q • b := by
  refine Vec3.ext_components ?_ ?_ ?_ <;> simp <;> ring

theorem length_sortedDistances (nn : Vec3 → ℕ × ℚ) (source : List Vec3) :
    (sortedDistances nn source).length = source.length := by
  simp [sortedDistances, nnDistances, List.length_insertionSort]

theorem median_index_lt (nn : Vec3 → ℕ × ℚ) (source : List Vec3)
    (h : source ≠ []) :
    (sortedDistances nn source).length / 2 < (sortedDistances nn source).length := by
  rw [length_sortedDistances]
  have := List.length_pos.mpr h
  omega

theorem medianDist_eq_getElem (nn : Vec3 → ℕ × ℚ) (source : List Vec3)
    (h : source ≠ []) :
    medianDist nn source =
      (sortedDistances nn source).get
        ⟨(sortedDistances nn source).length / 2, median_index_lt nn source h⟩ := by
  rw [medianDist, List.getD_eq_getElem?_getD,
    List.getElem?_eq_getElem (median_index_lt nn source h)]
  rfl

/-- The value the source calls `mad` is the deviation of the median element
itself, hence always `0` on non-empty input: the deviation list is indexed
at `len / 2` without being re-sorted. -/
theorem madCode_eq_zero (nn : Vec3 → ℕ × ℚ) (source : List Vec3)
    (h : source ≠ []) : madCode nn source = 0 := by
  have hlt := median_index_lt nn source h
  have hlt2 : (sortedDistances nn source).length / 2 <
      ((sortedDistances nn source).map fun d => |d - medianDist nn source|).length := by
    simpa using hlt
  rw [madCode, List.getD_eq_getElem?_getD, List.getElem?_eq_getElem hlt2]
  simp [List.getElem_map, medianDist_eq_getElem nn source h]

theorem sigmaCode_eq_zero (nn : Vec3 → ℕ × ℚ) (source : List Vec3)
    (h : source ≠ []) : sigmaCode nn source = 0 := by
  rw [sigmaCode, madCode_eq_zero nn source h, mul_zero]

theorem medianDist_mem (nn : Vec3 → ℕ × ℚ) (source : List Vec3)
    (h : source ≠ []) : medianDist nn source ∈ nnDistances nn source := by
  have : medianDist nn source ∈ sortedDistances nn source := by
    rw [medianDist_eq_getElem nn source h]
    exact List.get_mem _ _ _
  exact (List.perm_insertionSort (· ≤ ·) (nnDistances nn source)).subset this

theorem collectCorr_eq (nn : Vec3 → ℕ × ℚ) (target : List Vec3) (thr : ℚ) :
    ∀ l : List Vec3, (∀ p ∈ l, (nn p).2 ≤ thr → (nn p).1 < target.length) →
      collectCorr nn target thr l =
        some ((l.filter fun p => decide ((nn p).2 ≤ thr)).map
          fun p => (p, target.getD (nn p).1 default, (nn p).2)) := by
  intro l
  induction l with
  | nil => intro _; rfl
  | cons p rest ih =>
    intro h
    by_cases hp : (nn p).2 ≤ thr
    · have hidx : (nn p).1 < target.length := h p (List.mem_cons_self p rest) hp
      have htq : target[(nn p).1]? = some (target.getD (nn p).1 default) := by
        rw [List.getElem?_eq_getElem hidx, List.getD_eq_getElem?_getD,
          List.getElem?_eq_getElem hidx]
        rfl
      rw [collectCorr, if_pos hp, htq,
        ih fun q hq => h q (List.mem_cons_of_mem p hq)]
      simp [List.filter_cons, hp]
    · rw [collectCorr, if_neg hp, ih fun q hq => h q (List.mem_cons_of_mem p hq)]
      simp [List.filter_cons, hp]

/-- The source points retained by the robust gate, in source order. -/
def keptSources (nn : Vec3 → ℕ × ℚ) (source : List Vec3) : List Vec3 :=
  source.filter fun p =>
    decide ((nn p).2 ≤ medianDist nn source + 3 * sigmaCode nn source)

/-- Characterization of `find_correspondences` on non-empty input with
in-range neighbour indices: the three output lists are the gated source
points and their aligned matches/distances. -/
theorem find_correspondences_spec (nn : Vec3 → ℕ × ℚ)
    (source target : List Vec3) (h : source ≠ [])
    (hidx : ∀ p ∈ source,
      (nn p).2 ≤ medianDist nn source + 3 * sigmaCode nn source →
        (nn p).1 < target.length) :
    find_correspondences nn source target =
      some (keptSources nn source,
        (keptSources nn source).map fun p => target.getD (nn p).1 default,
        (keptSources nn source).map fun p => (nn p).2) := by
  have hlt := median_index_lt nn source h
  have hmed : (sortedDistances nn source)[(sortedDistances nn source).length / 2]? =
      some (medianDist nn source) := by
    rw [List.getElem?_eq_getElem hlt, medianDist_eq_getElem nn source h]
    rfl
  have hlt2 : (sortedDistances nn source).length / 2 <
      ((sortedDistances nn source).map fun d => |d - medianDist nn source|).length := by
    simpa using hlt
  have hmad : ((sortedDistances nn source).map fun d =>
      |d - medianDist nn source|)[(sortedDistances nn source).length / 2]? =
        some (0 : ℚ) := by
    rw [List.getElem?_eq_getElem hlt2]
    simp [List.getElem_map, medianDist_eq_getElem nn source h]
  have hidx0 : ∀ p ∈ source, (nn p).2 ≤ medianDist nn source →
      (nn p).1 < target.length := by
    intro p hp hle
    exact hidx p hp (by simpa [sigmaCode_eq_zero nn source h] using hle)
  have tri1 : ∀ l : List Vec3,
      (l.map fun p => (p, target.getD (nn p).1 default, (nn p).2)).map
        (fun c => c.1) = l := by
    intro l; rw [List.map_map]; exact List.map_id l
  have tri2 : ∀ l : List Vec3,
      (l.map fun p => (p, target.getD (nn p).1 default, (nn p).2)).map
        (fun c => c.2.1) = l.map fun p => target.getD (nn p).1 default := by
    intro l; rw [List.map_map]; rfl
  have tri3 : ∀ l : List Vec3,
      (l.map fun p => (p, target.getD (nn p).1 default, (nn p).2)).map
        (fun c => c.2.2) = l.map fun p => (nn p).2 := by
    intro l; rw [List.map_map]; rfl
  have hk : keptSources nn source =
      source.filter fun p => decide ((nn p).2 ≤ medianDist nn source) := by
    simp only [keptSources, sigmaCode_eq_zero nn source h, mul_zero, add_zero]
  rw [find_correspondences]
  simp only [hmed, hmad, mul_zero, add_zero]
  rw [collectCorr_eq nn target (medianDist nn source) source hidx0]
  simp only [Option.map]
  rw [tri1, tri2, tri3, hk]

end KorniaICP

namespace KorniaICP

/-- Modelled from the spec: a concrete instance of the external
nearest-neighbour capability, `nearest_neighbor(query) -> (index,
squared_distance)`, for the one-point target set `tgtEx = [(0,0,0)]`:
every query maps to index `0` at its squared Euclidean distance from the
origin. -/
def nnEx : Vec3 → ℕ × ℚ := fun p => (0, p.x * p.x + p.y * p.y + p.z * p.z)

def tgtEx : List Vec3 := [⟨0, 0, 0⟩]

/-- Three query points whose squared nearest-neighbour distances under
`nnEx` are `0`, `1`, `2`. -/
def srcEx : List Vec3 := [⟨0, 0, 0⟩, ⟨1, 0, 0⟩, ⟨1, 1, 0⟩]

/-- C5: in `find_correspondences` a correspondence is kept iff its
nearest-neighbour distance is at most `median_dist + 3 * sigma_d`; the
three returned lists are index-aligned (the i-th kept source point is
paired with its matched target point and its matched distance), the kept
points form a sublist of `source` (source order preserved), and the
output can only shrink. -/
theorem find_correspondences_gate_alignment (nn : Vec3 → ℕ × ℚ)
    (source target : List Vec3) (h : source ≠ [])
    (hidx : ∀ p ∈ source,
      (nn p).2 ≤ medianDist nn source + 3 * sigmaCode nn source →
        (nn p).1 < target.length) :
    find_correspondences nn source target =
      some (keptSources nn source,
        (keptSources nn source).map fun p => target.getD (nn p).1 default,
        (keptSources nn source).map fun p => (nn p).2) ∧
    (∀ p, p ∈ keptSources nn source ↔ p ∈ source ∧
        (nn p).2 ≤ medianDist nn source + 3 * sigmaCode nn source) ∧
    (keptSources nn source).Sublist source ∧
    (keptSources nn source).length ≤ source.length := by
  refine ⟨find_correspondences_spec nn source target h hidx, ?_, ?_, ?_⟩
  · intro p
    rw [keptSources, List.mem_filter, decide_eq_true_eq]
  · exact List.filter_sublist source
  · exact (List.filter_sublist source).length_le

theorem find_correspondences_gate_alignment_witness :
    find_correspondences nnEx srcEx tgtEx =
      some (keptSources nnEx srcEx,
        (keptSources nnEx srcEx).map fun p => tgtEx.getD (nnEx p).1 default,
        (keptSources nnEx srcEx).map fun p => (nnEx p).2) ∧
    (∀ p, p ∈ keptSources nnEx srcEx ↔ p ∈ srcEx ∧
        (nnEx p).2 ≤ medianDist nnEx srcEx + 3 * sigmaCode nnEx srcEx) ∧
    (keptSources nnEx srcEx).Sublist srcEx ∧
    (keptSources nnEx srcEx).length ≤ srcEx.length :=
  find_correspondences_gate_alignment nnEx srcEx tgtEx
    (by simp [srcEx]) (by intro p hp hle; simp [nnEx, tgtEx])

/-- C10: on a non-empty source (and non-empty target with in-range
neighbour indices) `find_correspondences` never returns an empty
correspondence set: the acceptance threshold `median + 3·sigma` is at
least the median (`sigma ≥ 0`), so every source point whose distance is
at most the median — in particular one attaining the median order
statistic — is retained. -/
theorem find_correspondences_nonempty (nn : Vec3 → ℕ × ℚ)
    (source target : List Vec3) (hs : source ≠ []) (hemp : target ≠ [])
    (hidx : ∀ p ∈ source, (nn p).1 < target.length) :
    ∃ s t d, find_correspondences nn source target = some (s, t, d) ∧
      s ≠ [] ∧ 0 ≤ sigmaCode nn source ∧
      ∀ p ∈ source, (nn p).2 ≤ medianDist nn source → p ∈ s := by
  have hspec := find_correspondences_spec nn source target hs
    (fun p hp _ => hidx p hp)
  have hsig : sigmaCode nn source = 0 := sigmaCode_eq_zero nn source hs
  have hkeep : ∀ p ∈ source, (nn p).2 ≤ medianDist nn source →
      p ∈ keptSources nn source := by
    intro p hp hle
    rw [keptSources, List.mem_filter, decide_eq_true_eq]
    exact ⟨hp, by rw [hsig]; linarith⟩
  have hmed := medianDist_mem nn source hs
  rw [nnDistances] at hmed
  obtain ⟨q, hq, hq2⟩ := List.mem_map.mp hmed
  obtain ⟨p, hp, hpq⟩ := List.mem_map.mp hq
  have hpmem : p ∈ keptSources nn source :=
    hkeep p hp (le_of_eq (by rw [hpq, hq2]))
  exact ⟨keptSources nn source, _, _, hspec,
    List.ne_nil_of_mem hpmem, by rw [hsig], hkeep⟩

theorem find_correspondences_nonempty_witness :
    ∃ s t d, find_correspondences nnEx srcEx tgtEx = some (s, t, d) ∧
      s ≠ [] ∧ 0 ≤ sigmaCode nnEx srcEx ∧
      ∀ p ∈ srcEx, (nnEx p).2 ≤ medianDist nnEx srcEx → p ∈ s :=
  find_correspondences_nonempty nnEx srcEx tgtEx (by simp [srcEx])
    (by simp [tgtEx]) (by intro p hp; simp [nnEx, tgtEx])

/-- C2 (code bug): the robust scale actually used by the gate.  On the
input `srcEx` (nearest-neighbour distances `0, 1, 2`) the spec's MAD —
the median of the absolute deviations `{1, 0, 1}` from the median
distance `1` — is `1`, so the spec's `sigma = 1.4826 · MAD = 1.4826`;
but the code reads the *unsorted* deviation list at its middle index
(the deviation of the median element itself, always `0`), so the
computed `sigma_d` is `0` ≠ `1.4826 · MAD`. -/
theorem sigma_deviates_from_spec_mad :
    sigmaCode nnEx srcEx = 0 ∧ madSpec nnEx srcEx = 1 ∧
      sigmaCode nnEx srcEx ≠ 14826/10000 * madSpec nnEx srcEx := by
  have h1 : sigmaCode nnEx srcEx = 0 := sigmaCode_eq_zero nnEx srcEx (by simp [srcEx])
  have h2 : madSpec nnEx srcEx = 1 := by
    norm_num [madSpec, sortedDistances, nnDistances, medianDist, srcEx, nnEx,
      List.insertionSort, List.orderedInsert, List.getD]
  refine ⟨h1, h2, ?_⟩
  rw [h1, h2]
  norm_num

end KorniaICP

namespace KorniaICP

/-- C9: `update_transformation` composes: the new accumulated rotation is
`accumulated_R · delta_R` (as linear maps: the delta acts first, then the
prior accumulated rotation), the new accumulated translation is
`accumulated_t + delta_t` componentwise, and — the function being pure on
its borrowed increments — `delta_R`/`delta_t` appear only as inputs. -/
theorem update_transformation_composes (rr : RowMat3) (tt : Vec3)
    (rr_delta : RowMat3) (tt_delta : Vec3) :
    (∀ v : Vec3, ((update_transformation rr tt rr_delta tt_delta).1).apply v =
        rr.apply (rr_delta.apply v)) ∧
    (update_transformation rr tt rr_delta tt_delta).2 = tt + tt_delta := by
  constructor
  · intro v
    refine Vec3.ext_components ?_ ?_ ?_ <;>
      simp [update_transformation, matmul33, RowMat3.apply, Vec3.dot] <;> ring
  · refine Vec3.ext_components ?_ ?_ ?_ <;> simp [update_transformation]

/-- A concrete SVD oracle for instantiations: always `(I, I)`, a valid
factorization of the zero covariance matrix. -/
def svdId : Mat3 → Mat3 × Mat3 := fun _ => (Mat3.id, Mat3.id)

/-- C3 counterexample: on empty input `compute_centroids` does not fail
with any error — it returns a value, the junk `(0/0, 0/0)` pair of the
exact model (a NaN pair in `f64`). -/
theorem compute_centroids_empty_returns_value :
    compute_centroids [] [] = (0, 0) := by
  refine Prod.ext ?_ ?_ <;>
    refine Vec3.ext_components ?_ ?_ ?_ <;>
      norm_num [compute_centroids, vsum]

/-- C3 (amended): none of the three functions reports an `InvalidInput`
error on empty input.  `compute_centroids` is total with no error channel
(dividing by zero); `fit_transformation` on two empty lists runs the
general branch to completion and returns a transform; and
`find_correspondences` with an empty source panics — modelled `none` —
while indexing the empty distance vector, rather than returning an
error value. -/
theorem empty_input_no_invalid_input_error :
    (∀ (nn : Vec3 → ℕ × ℚ) (target : List Vec3),
        find_correspondences nn [] target = none) ∧
    compute_centroids [] [] = (0, 0) ∧
    (∀ svd : Mat3 → Mat3 × Mat3,
        fit_transformation svd [] [] =
          some (fitRot svd [] [], fitTrans svd [] [])) := by
  refine ⟨?_, ?_, ?_⟩
  · intro nn target
    rfl
  · refine Prod.ext ?_ ?_ <;>
      refine Vec3.ext_components ?_ ?_ ?_ <;>
        norm_num [compute_centroids, vsum]
  · intro svd
    rw [fit_transformation, if_neg (by simp), if_neg (by simp),
      if_neg (by simp), fit_general, if_neg]
    intro hcon
    exact hcon.1 (by intro pq hpq; simp at hpq)

def ptsA : List Vec3 := [⟨1, 1, 1⟩]

def ptsB : List Vec3 := [⟨2, 2, 2⟩, ⟨9, 9, 9⟩]

/-- C4 counterexample: with mismatched lengths (1 source point, 2 target
points) `compute_centroids` does not fail with `InvalidInput` — it
silently zips down to one pair and returns `((1,1,1), (2,2,2))`,
ignoring the extra point. -/
theorem compute_centroids_mismatch_returns_value :
    compute_centroids ptsA ptsB = (⟨1, 1, 1⟩, ⟨2, 2, 2⟩) := by
  refine Prod.ext ?_ ?_ <;>
    refine Vec3.ext_components ?_ ?_ ?_ <;>
      norm_num [compute_centroids, ptsA, ptsB, vsum]

/-- C4 (amended): on mismatched lengths `fit_transformation` panics via
`assert_eq!` (modelled `none`) — a panic, not a recoverable
`InvalidInput` reported to the caller — while `compute_centroids`
performs no length check at all: it truncates both lists to the zipped
common prefix and divides *both* sums by the length of the first list. -/
theorem length_mismatch_behaviour :
    (∀ (svd : Mat3 → Mat3 × Mat3) (src dst : List Vec3),
        src.length ≠ dst.length → fit_transformation svd src dst = none) ∧
    (∀ points1 points2 : List Vec3,
        compute_centroids points1 points2 =
          (((points1.length : ℚ))⁻¹ • vsum (points1.take points2.length),
           ((points1.length : ℚ))⁻¹ • vsum (points2.take points1.length))) := by
  constructor
  · intro svd src dst h
    rw [fit_transformation, if_pos h]
  · intro points1 points2
    rw [compute_centroids]
    refine Prod.ext ?_ ?_ <;> simp [zip_map_fst, zip_map_snd]

theorem length_mismatch_behaviour_witness :
    fit_transformation svdId ptsA [] = none ∧
    compute_centroids ptsA ptsB =
      (((ptsA.length : ℚ))⁻¹ • vsum (ptsA.take ptsB.length),
       ((ptsA.length : ℚ))⁻¹ • vsum (ptsB.take ptsA.length)) :=
  ⟨length_mismatch_behaviour.1 svdId ptsA [] (by simp [ptsA]),
   length_mismatch_behaviour.2 ptsA ptsB⟩

end KorniaICP

namespace KorniaICP

theorem mul_vec3_x (m : Mat3) (v : Vec3) :
    (m.mul_vec3 v).x = v.x * m.x_axis.x + v.y * m.y_axis.x + v.z * m.z_axis.x := by
  simp [Mat3.mul_vec3]

theorem mul_vec3_y (m : Mat3) (v : Vec3) :
    (m.mul_vec3 v).y = v.x * m.x_axis.y + v.y * m.y_axis.y + v.z * m.z_axis.y := by
  simp [Mat3.mul_vec3]

theorem mul_vec3_z (m : Mat3) (v : Vec3) :
    (m.mul_vec3 v).z = v.x * m.x_axis.z + v.y * m.y_axis.z + v.z * m.z_axis.z := by
  simp [Mat3.mul_vec3]

theorem mat3_mul_assoc (a b c : Mat3) :
    (a.mul_mat3 b).mul_mat3 c = a.mul_mat3 (b.mul_mat3 c) := by
  refine Mat3.ext_axes ?_ ?_ ?_ <;> refine Vec3.ext_components ?_ ?_ ?_ <;>
    simp [Mat3.mul_mat3, mul_vec3_x, mul_vec3_y, mul_vec3_z] <;> ring

theorem mat3_mul_id (a : Mat3) : a.mul_mat3 Mat3.id = a := by
  refine Mat3.ext_axes ?_ ?_ ?_ <;> refine Vec3.ext_components ?_ ?_ ?_ <;>
    simp [Mat3.mul_mat3, Mat3.id, mul_vec3_x, mul_vec3_y, mul_vec3_z]

theorem mat3_id_mul (a : Mat3) : Mat3.id.mul_mat3 a = a := by
  refine Mat3.ext_axes ?_ ?_ ?_ <;> refine Vec3.ext_components ?_ ?_ ?_ <;>
    simp [Mat3.mul_mat3, Mat3.id, mul_vec3_x, mul_vec3_y, mul_vec3_z]

theorem transpose_mul_mat3 (a b : Mat3) :
    (a.mul_mat3 b).transpose = b.transpose.mul_mat3 a.transpose := by
  refine Mat3.ext_axes ?_ ?_ ?_ <;> refine Vec3.ext_components ?_ ?_ ?_ <;>
    simp [Mat3.mul_mat3, Mat3.transpose, mul_vec3_x, mul_vec3_y, mul_vec3_z] <;>
    ring

theorem det_mul_mat3 (a b : Mat3) :
    (a.mul_mat3 b).determinant = a.determinant * b.determinant := by
  simp [Mat3.mul_mat3, Mat3.determinant, Vec3.dot, Vec3.cross,
    mul_vec3_x, mul_vec3_y, mul_vec3_z]
  ring

theorem det_transpose (a : Mat3) :
    a.transpose.determinant = a.determinant := by
  simp [Mat3.transpose, Mat3.determinant, Vec3.dot, Vec3.cross]
  ring

theorem det_negThird (v : Mat3) :
    (negThird v).determinant = -(v.determinant) := by
  simp [negThird, Mat3.determinant, Vec3.dot, Vec3.cross]
  ring

theorem det_id : Mat3.id.determinant = 1 := by
  norm_num [Mat3.id, Mat3.determinant, Vec3.dot, Vec3.cross]

/-- The row-major output array of the general branch has the same
determinant as the `rr` it was converted from. -/
theorem det_outRows (m : Mat3) :
    (outRows (rrDMat3 m)).det = m.determinant := by
  simp [outRows, rrDMat3, RowMat3.det, Mat3.determinant, Vec3.dot, Vec3.cross]
  ring

theorem det_rowId : rowId.det = 1 := by
  norm_num [rowId, RowMat3.det, Vec3.dot, Vec3.cross]

/-- `det` of an orthogonal factor is `±1`. -/
theorem det_pm_one_of_orthogonal {m : Mat3}
    (h : m.transpose.mul_mat3 m = Mat3.id) :
    m.determinant = 1 ∨ m.determinant = -1 := by
  have hd := congrArg Mat3.determinant h
  rw [det_mul_mat3, det_transpose, det_id] at hd
  exact mul_self_eq_one_iff.mp hd

end KorniaICP

namespace KorniaICP

theorem transpose_transpose (m : Mat3) : m.transpose.transpose = m := rfl

/-- The sign-flip factor: `negThird v = v · diag(1, 1, -1)`. -/
def dNeg : Mat3 := negThird Mat3.id

theorem negThird_eq (v : Mat3) : negThird v = v.mul_mat3 dNeg := by
  refine Mat3.ext_axes ?_ ?_ ?_ <;> refine Vec3.ext_components ?_ ?_ ?_ <;>
    simp [negThird, dNeg, Mat3.id, Mat3.mul_mat3, mul_vec3_x, mul_vec3_y,
      mul_vec3_z]

theorem dNeg_mul_transpose : dNeg.mul_mat3 dNeg.transpose = Mat3.id := by
  refine Mat3.ext_axes ?_ ?_ ?_ <;> refine Vec3.ext_components ?_ ?_ ?_ <;>
    norm_num [dNeg, negThird, Mat3.id, Mat3.transpose, Mat3.mul_mat3,
      mul_vec3_x, mul_vec3_y, mul_vec3_z]

theorem negThird_mul_negThird_transpose {v : Mat3}
    (hv2 : v.mul_mat3 v.transpose = Mat3.id) :
    (negThird v).mul_mat3 (negThird v).transpose = Mat3.id := by
  rw [negThird_eq, transpose_mul_mat3, ← mat3_mul_assoc, mat3_mul_assoc v,
    dNeg_mul_transpose, mat3_mul_id, hv2]

/-- The candidate rotation (after reflection correction) of an orthogonal
SVD is itself orthogonal: `R·Rᵗ = I`. -/
theorem candidateRotation_orthogonal {u v : Mat3}
    (hu : u.transpose.mul_mat3 u = Mat3.id)
    (hv2 : v.mul_mat3 v.transpose = Mat3.id) :
    (candidateRotation u v).mul_mat3 (candidateRotation u v).transpose =
      Mat3.id := by
  have key : ∀ a : Mat3, a.mul_mat3 a.transpose = Mat3.id →
      (a.mul_mat3 u.transpose).mul_mat3 (a.mul_mat3 u.transpose).transpose =
        Mat3.id := by
    intro a ha
    rw [transpose_mul_mat3, transpose_transpose, ← mat3_mul_assoc,
      mat3_mul_assoc a, hu, mat3_mul_id, ha]
  rw [candidateRotation]
  by_cases hneg : (v.mul_mat3 u.transpose).determinant < 0
  · rw [if_pos hneg]
    exact key (negThird v) (negThird_mul_negThird_transpose hv2)
  · rw [if_neg hneg]
    exact key v hv2

/-- C6: when the candidate rotation `R = V·Uᵗ` from an (orthogonal) SVD
of the cross-covariance matrix has negative determinant, the code negates
the third column of `V` and recomputes `R = V'·Uᵗ`; on every such input
the corrected `rr` — and the rotation finally returned by the general
branch, whichever of its sub-branches fires — has determinant `+1`. -/
theorem reflection_correction_det_one (svd : Mat3 → Mat3 × Mat3)
    (src dst : List Vec3) (u v : Mat3)
    (hsvd : svd (crossCov src dst) = (u, v))
    (hu : u.transpose.mul_mat3 u = Mat3.id)
    (hv : v.transpose.mul_mat3 v = Mat3.id)
    (hneg : (v.mul_mat3 u.transpose).determinant < 0) :
    fitRR svd src dst = (negThird v).mul_mat3 u.transpose ∧
    (fitRR svd src dst).determinant = 1 ∧
    ((fit_general svd src dst).1).det = 1 := by
  have hrr : fitRR svd src dst = (negThird v).mul_mat3 u.transpose := by
    rw [fitRR, hsvd]
    show candidateRotation u v = _
    rw [candidateRotation, if_pos hneg]
  have hdetu := det_pm_one_of_orthogonal hu
  have hdetv := det_pm_one_of_orthogonal hv
  have hneg2 : v.determinant * u.determinant < 0 := by
    rw [det_mul_mat3, det_transpose] at hneg
    exact hneg
  have hprod : v.determinant * u.determinant = -1 := by
    rcases hdetv with h2 | h2 <;> rcases hdetu with h1 | h1 <;>
      rw [h1, h2] at hneg2 ⊢ <;> norm_num at hneg2 ⊢
  have hdet : (fitRR svd src dst).determinant = 1 := by
    rw [hrr, det_mul_mat3, det_negThird, det_transpose, neg_mul, hprod]
    norm_num
  refine ⟨hrr, hdet, ?_⟩
  rw [fit_general]
  by_cases hc : ¬ is_acceptable dst
      (transform_points3d (fitRot svd src dst) (fitTrans svd src dst) src) ∧
      small_rotation_case src dst
  · rw [if_pos hc]
    exact det_rowId
  · rw [if_neg hc]
    show (fitRot svd src dst).det = 1
    rw [fitRot, det_outRows]
    exact hdet

/-- An SVD oracle whose `V` factor is the reflection `diag(1, 1, -1)`,
driving the `det < 0` correction branch. -/
def svdRefl : Mat3 → Mat3 × Mat3 := fun _ => (Mat3.id, dNeg)

theorem reflection_correction_det_one_witness :
    fitRR svdRefl ptsA ptsA = (negThird dNeg).mul_mat3 Mat3.id.transpose ∧
    (fitRR svdRefl ptsA ptsA).determinant = 1 ∧
    ((fit_general svdRefl ptsA ptsA).1).det = 1 := by
  have hid : Mat3.id.transpose = Mat3.id := rfl
  refine reflection_correction_det_one svdRefl ptsA ptsA Mat3.id dNeg rfl
    (by rw [hid, mat3_id_mul]) ?_ ?_
  · rw [show dNeg.transpose = dNeg from rfl]
    exact dNeg_mul_transpose
  · rw [hid, mat3_mul_id, show dNeg.determinant = -1 from by
      rw [dNeg, det_negThird, det_id]]
    norm_num

end KorniaICP

namespace KorniaICP

/-- C7: whenever the residual validation fails (some pair differs from its
transformed source by at least `1e-5` on some axis) while every matched
pair's per-axis displacement stays below the instability threshold
`0.35`, `fit_transformation` overrides its estimate with the identity
rotation and the mean of the per-pair differences. -/
theorem fallback_overrides_estimate (svd : Mat3 → Mat3 × Mat3)
    (src dst : List Vec3) (hlen : src.length = dst.length)
    (hfp1 : ¬ (src ≠ [] ∧ dst ≠ [] ∧ is_same_first_point src.headI dst.headI))
    (hfp2 : ¬ (src.length = 30 ∧ dst.length = 30 ∧
      rotx_pattern src.headI dst.headI))
    (hres : ¬ is_acceptable dst
      (transform_points3d (fitRot svd src dst) (fitTrans svd src dst) src))
    (hsmall : small_rotation_case src dst) :
    fit_transformation svd src dst = some (rowId, better_t src dst) := by
  rw [fit_transformation, if_neg (fun h => h hlen), if_neg hfp1, if_neg hfp2,
    fit_general, if_pos ⟨hres, hsmall⟩]

/-- A two-point swap input on which the SVD-branch estimate (identity with
zero translation under the `svdId` oracle) fails validation while all
displacements are `0.1`. -/
def srcF : List Vec3 := [⟨0, 0, 0⟩, ⟨1/10, 0, 0⟩]

def dstF : List Vec3 := [⟨1/10, 0, 0⟩, ⟨0, 0, 0⟩]

theorem fitRR_svdId_srcF : fitRR svdId srcF dstF = Mat3.id := by
  rw [fitRR]
  show candidateRotation Mat3.id Mat3.id = Mat3.id
  have hid : Mat3.id.transpose = Mat3.id := rfl
  rw [candidateRotation, if_neg]
  · rw [hid, mat3_mul_id]
  · rw [hid, mat3_mul_id, det_id]
    norm_num

theorem fitRot_svdId_srcF : fitRot svdId srcF dstF = rowId := by
  rw [fitRot, fitRR_svdId_srcF]
  rfl

theorem centroids_srcF : compute_centroids srcF dstF =
    (⟨1/20, 0, 0⟩, ⟨1/20, 0, 0⟩) := by
  refine Prod.ext ?_ ?_ <;> refine Vec3.ext_components ?_ ?_ ?_ <;>
    norm_num [compute_centroids, srcF, dstF, vsum]

theorem fitTrans_svdId_srcF : fitTrans svdId srcF dstF = 0 := by
  rw [fitTrans, fitRR_svdId_srcF, centroids_srcF]
  refine Vec3.ext_components ?_ ?_ ?_ <;>
    norm_num [rrDMat3, Mat3.id, mul_vec3_x, mul_vec3_y, mul_vec3_z]

theorem fallback_overrides_estimate_witness :
    fit_transformation svdId srcF dstF = some (rowId, better_t srcF dstF) := by
  refine fallback_overrides_estimate svdId srcF dstF (by simp [srcF, dstF])
    ?_ ?_ ?_ ?_
  · rintro ⟨-, -, hx, -, -⟩
    rw [show srcF.headI = ⟨0, 0, 0⟩ from rfl,
      show dstF.headI = ⟨1/10, 0, 0⟩ from rfl] at hx
    rw [abs_lt] at hx
    norm_num at hx
  · rintro ⟨h30, -, -⟩
    simp [srcF] at h30
  · rw [fitRot_svdId_srcF, fitTrans_svdId_srcF]
    intro h
    have h1 := h (⟨1/10, 0, 0⟩, rowId.apply ⟨0, 0, 0⟩ + 0)
      (by simp [srcF, dstF, transform_points3d])
    obtain ⟨hx, -, -⟩ := h1
    rw [show (rowId.apply ⟨0, 0, 0⟩ + 0 : Vec3).x = 0 from by
      norm_num [RowMat3.apply, rowId, Vec3.dot], abs_lt] at hx
    norm_num at hx
  · intro pq hpq
    simp [srcF, dstF] at hpq
    rcases hpq with h | h <;> subst h <;>
      refine ⟨?_, ?_, ?_⟩ <;> rw [abs_lt] <;> constructor <;> norm_num

end KorniaICP

namespace KorniaICP

/-- Action of the *transpose* of a row-major array on a vector: component
`i` of the result dots the `i`-th column of the array with `v`. -/
def RowMat3.applyTrans (m : RowMat3) (v : Vec3) : Vec3 :=
  ⟨(Vec3.mk m.r0.x m.r1.x m.r2.x).dot v,
   (Vec3.mk m.r0.y m.r1.y m.r2.y).dot v,
   (Vec3.mk m.r0.z m.r1.z m.r2.z).dot v⟩

theorem applyTrans_outRows (m : Mat3) (v : Vec3) :
    (outRows m).applyTrans v = m.mul_vec3 v := by
  refine Vec3.ext_components ?_ ?_ ?_ <;>
    simp [RowMat3.applyTrans, outRows, Vec3.dot, mul_vec3_x, mul_vec3_y,
      mul_vec3_z] <;> ring

theorem rowId_applyTrans (v : Vec3) : rowId.applyTrans v = v := by
  refine Vec3.ext_components ?_ ?_ ?_ <;>
    norm_num [RowMat3.applyTrans, rowId, Vec3.dot]

/-- The fallback translation is exactly the difference of the centroids. -/
theorem better_t_eq_centroid_diff (src dst : List Vec3) :
    better_t src dst =
      (compute_centroids src dst).2 - (compute_centroids src dst).1 := by
  rw [better_t, vsum_map_sub, vec3_smul_sub, compute_centroids]

/-- C8 (amended): off the two hard-coded fast paths, the translation
written by `fit_transformation` satisfies
`t = centroid_dst - Rᵗ · centroid_src`, with `Rᵗ` the *transpose* of the
returned rotation array — the code multiplies the source centroid by
`rr_dmat3`, the transposed copy of `rr`, while returning `rr` itself.
The near-degenerate fallback also satisfies this (there `R = I` and
`t = centroid_dst - centroid_src`); the fast paths return `t = 0`
regardless of the centroids. -/
theorem fit_translation_transposed (svd : Mat3 → Mat3 × Mat3)
    (src dst : List Vec3) (hlen : src.length = dst.length)
    (hfp1 : ¬ (src ≠ [] ∧ dst ≠ [] ∧ is_same_first_point src.headI dst.headI))
    (hfp2 : ¬ (src.length = 30 ∧ dst.length = 30 ∧
      rotx_pattern src.headI dst.headI)) :
    fit_transformation svd src dst = some (fit_general svd src dst) ∧
    (fit_general svd src dst).2 =
      (compute_centroids src dst).2 -
        ((fit_general svd src dst).1).applyTrans
          (compute_centroids src dst).1 := by
  constructor
  · rw [fit_transformation, if_neg (fun h => h hlen), if_neg hfp1, if_neg hfp2]
  · rw [fit_general]
    by_cases hc : ¬ is_acceptable dst
        (transform_points3d (fitRot svd src dst) (fitTrans svd src dst) src) ∧
        small_rotation_case src dst
    · rw [if_pos hc]
      show better_t src dst = _ - rowId.applyTrans _
      rw [rowId_applyTrans, better_t_eq_centroid_diff]
    · rw [if_neg hc]
      show fitTrans svd src dst = _ - (fitRot svd src dst).applyTrans _
      rw [fitTrans, fitRot, applyTrans_outRows]

theorem fit_translation_transposed_witness :
    fit_transformation svdId srcF dstF = some (fit_general svdId srcF dstF) ∧
    (fit_general svdId srcF dstF).2 =
      (compute_centroids srcF dstF).2 -
        ((fit_general svdId srcF dstF).1).applyTrans
          (compute_centroids srcF dstF).1 := by
  refine fit_translation_transposed svdId srcF dstF (by simp [srcF, dstF])
    ?_ ?_
  · rintro ⟨-, -, hx, -, -⟩
    rw [show srcF.headI = ⟨0, 0, 0⟩ from rfl,
      show dstF.headI = ⟨1/10, 0, 0⟩ from rfl] at hx
    rw [abs_lt] at hx
    norm_num at hx
  · rintro ⟨h30, -, -⟩
    simp [srcF] at h30

/-- The two fast-path inputs and the rotated general-branch input used to
refute the original translation contract. -/
def srcFP : List Vec3 := [⟨0, 0, 0⟩, ⟨1, 0, 0⟩]

def dstFP : List Vec3 := [⟨0, 0, 0⟩, ⟨5, 5, 5⟩]

/-- glam (column-major) rotation by 90° about Z: the mathematical matrix
`[[0,-1,0],[1,0,0],[0,0,1]]`. -/
def rzC : Mat3 := ⟨⟨0, 1, 0⟩, ⟨-1, 0, 0⟩, ⟨0, 0, 1⟩⟩

def svdRz : Mat3 → Mat3 × Mat3 := fun _ => (Mat3.id, rzC)

def srcG : List Vec3 := [⟨1, 0, 0⟩, ⟨3, 0, 0⟩]

def dstG : List Vec3 := [⟨0, 0, 0⟩, ⟨0, 0, 0⟩]

theorem fitRR_svdRz_srcG : fitRR svdRz srcG dstG = rzC := by
  rw [fitRR]
  show candidateRotation Mat3.id rzC = rzC
  have hid : Mat3.id.transpose = Mat3.id := rfl
  rw [candidateRotation, if_neg]
  · rw [hid, mat3_mul_id]
  · rw [hid, mat3_mul_id]
    norm_num [rzC, Mat3.determinant, Vec3.dot, Vec3.cross]

theorem centroids_srcG : compute_centroids srcG dstG = (⟨2, 0, 0⟩, 0) := by
  refine Prod.ext ?_ ?_ <;> refine Vec3.ext_components ?_ ?_ ?_ <;>
    norm_num [compute_centroids, srcG, dstG, vsum]

theorem fitTrans_svdRz_srcG : fitTrans svdRz srcG dstG = ⟨0, 2, 0⟩ := by
  rw [fitTrans, fitRR_svdRz_srcG, centroids_srcG]
  refine Vec3.ext_components ?_ ?_ ?_ <;>
    norm_num [rrDMat3, rzC, mul_vec3_x, mul_vec3_y, mul_vec3_z]

/-- C8 counterexample: the claimed contract `t = centroid_dst - R ·
centroid_src` fails both on the first-point fast path (which returns
`t = 0` whatever the centroids) and in the general branch (whose
translation uses the transposed rotation). -/
theorem fit_translation_centroid_false :
    fit_transformation svdId srcFP dstFP = some (rowId, 0) ∧
    ¬ ((0 : Vec3) = (compute_centroids srcFP dstFP).2 -
        rowId.apply (compute_centroids srcFP dstFP).1) ∧
    fit_transformation svdRz srcG dstG =
      some (outRows (rrDMat3 rzC), ⟨0, 2, 0⟩) ∧
    ¬ ((⟨0, 2, 0⟩ : Vec3) = (compute_centroids srcG dstG).2 -
        (outRows (rrDMat3 rzC)).apply (compute_centroids srcG dstG).1) := by
  refine ⟨?_, ?_, ?_, ?_⟩
  · have hsame : is_same_first_point srcFP.headI dstFP.headI := by
      rw [show srcFP.headI = ⟨0, 0, 0⟩ from rfl,
        show dstFP.headI = ⟨0, 0, 0⟩ from rfl]
      refine ⟨?_, ?_, ?_⟩ <;> rw [abs_lt] <;> constructor <;> norm_num
    rw [fit_transformation, if_neg (by simp [srcFP, dstFP]),
      if_pos ⟨by simp [srcFP], by simp [dstFP], hsame⟩]
  · intro h
    have hx := congrArg Vec3.x h
    norm_num [compute_centroids, srcFP, dstFP, vsum, RowMat3.apply, rowId,
      Vec3.dot] at hx
  · have hg1 : ¬ (srcG ≠ [] ∧ dstG ≠ [] ∧
        is_same_first_point srcG.headI dstG.headI) := by
      rintro ⟨-, -, hx, -, -⟩
      rw [show srcG.headI = ⟨1, 0, 0⟩ from rfl,
        show dstG.headI = ⟨0, 0, 0⟩ from rfl] at hx
      rw [abs_lt] at hx
      norm_num at hx
    have hg2 : ¬ (srcG.length = 30 ∧ dstG.length = 30 ∧
        rotx_pattern srcG.headI dstG.headI) := by
      rintro ⟨h30, -, -⟩
      simp [srcG] at h30
    have hg3 : ¬ (¬ is_acceptable dstG
        (transform_points3d (fitRot svdRz srcG dstG)
          (fitTrans svdRz srcG dstG) srcG) ∧
        small_rotation_case srcG dstG) := by
      intro hc
      have hsm := hc.2 (⟨1, 0, 0⟩, ⟨0, 0, 0⟩) (by simp [srcG, dstG])
      obtain ⟨hx, -, -⟩ := hsm
      rw [abs_lt] at hx
      norm_num at hx
    rw [fit_transformation, if_neg (by simp [srcG, dstG]), if_neg hg1,
      if_neg hg2, fit_general, if_neg hg3]
    rw [fitRot, fitTrans_svdRz_srcG, fitRR_svdRz_srcG]
  · intro h
    have hy := congrArg Vec3.y h
    norm_num [centroids_srcG, outRows, rrDMat3, rzC, RowMat3.apply,
      Vec3.dot] at hy

end KorniaICP

namespace KorniaICP

/-- A divergence input for the first fast path: the first points coincide,
so the hard-coded `(I, 0)` is returned, yet the destination centroid is
the origin while the source centroid is `(1,0,0)`, so the general branch
must translate by a unit-length vector. -/
def srcDiv : List Vec3 := [⟨0, 0, 0⟩, ⟨2, 0, 0⟩]

def dstDiv : List Vec3 := [⟨0, 0, 0⟩, ⟨0, 0, 0⟩]

theorem centroids_srcDiv : compute_centroids srcDiv dstDiv = (⟨1, 0, 0⟩, 0) := by
  refine Prod.ext ?_ ?_ <;> refine Vec3.ext_components ?_ ?_ ?_ <;>
    norm_num [compute_centroids, srcDiv, dstDiv, vsum]

theorem not_small_rotation_srcDiv : ¬ small_rotation_case srcDiv dstDiv := by
  intro h
  have h2 := h (⟨2, 0, 0⟩, ⟨0, 0, 0⟩) (by simp [srcDiv, dstDiv])
  obtain ⟨hx, -, -⟩ := h2
  rw [abs_lt] at hx
  norm_num at hx

/-- C1: `fit_transformation` special-cases unit-test input patterns with
pre-baked answers.  (i) Whenever the first source and destination points
agree per axis within `1e-10`, the hard-coded `(I, 0)` is returned —
whatever the remaining points are.  (ii) Whenever both inputs have
exactly 30 points and the first destination point matches a 90°-X
rotation of the first source point within `1e-5` (and path (i) did not
fire), the hard-coded `([[1,0,0],[0,0,-1],[0,1,0]], 0)` is returned.
(iii) These constants differ from the general algorithm: on `srcDiv` /
`dstDiv` the fast path returns `(I, 0)`, while the general branch — for
*every* SVD oracle with orthogonal factors — returns a translation of
unit length, never `(I, 0)`. -/
theorem fit_transformation_hardcoded_paths :
    (∀ (svd : Mat3 → Mat3 × Mat3) (src dst : List Vec3),
        src.length = dst.length → src ≠ [] →
        is_same_first_point src.headI dst.headI →
        fit_transformation svd src dst = some (rowId, 0)) ∧
    (∀ (svd : Mat3 → Mat3 × Mat3) (src dst : List Vec3),
        src.length = 30 → dst.length = 30 →
        ¬ is_same_first_point src.headI dst.headI →
        rotx_pattern src.headI dst.headI →
        fit_transformation svd src dst = some (rotxRows, 0)) ∧
    (∀ (svd : Mat3 → Mat3 × Mat3) (u v : Mat3),
        svd (crossCov srcDiv dstDiv) = (u, v) →
        u.transpose.mul_mat3 u = Mat3.id →
        v.mul_mat3 v.transpose = Mat3.id →
        fit_transformation svd srcDiv dstDiv = some (rowId, 0) ∧
        fit_general svd srcDiv dstDiv ≠ (rowId, 0)) := by
  refine ⟨?_, ?_, ?_⟩
  · intro svd src dst hlen hs hfirst
    have hd : dst ≠ [] := by
      rw [← List.length_pos, ← hlen, List.length_pos]
      exact hs
    rw [fit_transformation, if_neg (fun h => h hlen), if_pos ⟨hs, hd, hfirst⟩]
  · intro svd src dst h30s h30d hnfirst hpat
    rw [fit_transformation, if_neg (fun h => h (h30s.trans h30d.symm)),
      if_neg (fun hc => hnfirst hc.2.2), if_pos ⟨h30s, h30d, hpat⟩]
  · intro svd u v hsvd hu hv2
    constructor
    · have hsame : is_same_first_point srcDiv.headI dstDiv.headI := by
        rw [show srcDiv.headI = ⟨0, 0, 0⟩ from rfl,
          show dstDiv.headI = ⟨0, 0, 0⟩ from rfl]
        refine ⟨?_, ?_, ?_⟩ <;> rw [abs_lt] <;> constructor <;> norm_num
      rw [fit_transformation, if_neg (by simp [srcDiv, dstDiv]),
        if_pos ⟨by simp [srcDiv], by simp [dstDiv], hsame⟩]
    · have hrrO : (fitRR svd srcDiv dstDiv).mul_mat3
          (fitRR svd srcDiv dstDiv).transpose = Mat3.id := by
        rw [fitRR, hsvd]
        exact candidateRotation_orthogonal hu hv2
      have h11 := congrArg (fun m => m.x_axis.x) hrrO
      simp only [Mat3.mul_mat3, Mat3.transpose, mul_vec3_x, Mat3.id] at h11
      intro heq
      rw [fit_general, if_neg (fun hc => not_small_rotation_srcDiv hc.2)] at heq
      have ht : fitTrans svd srcDiv dstDiv = 0 := congrArg Prod.snd heq
      rw [fitTrans, centroids_srcDiv] at ht
      have hx := congrArg Vec3.x ht
      have hy := congrArg Vec3.y ht
      have hz := congrArg Vec3.z ht
      simp only [Vec3.sub_x, Vec3.sub_y, Vec3.sub_z, Vec3.zero_x, Vec3.zero_y,
        Vec3.zero_z, rrDMat3, mul_vec3_x, mul_vec3_y, mul_vec3_z] at hx hy hz
      norm_num at hx hy hz
      rw [hx, hy, hz] at h11
      norm_num at h11

end KorniaICP

namespace KorniaICP

/-- 30 copies of one point, with destinations matching the 90°-X-rotation
pattern `(x, -z, y)` of the sources. -/
def src30 : List Vec3 := List.replicate 30 ⟨1, 2, 3⟩

def dst30 : List Vec3 := List.replicate 30 ⟨1, -3, 2⟩

theorem fit_transformation_hardcoded_paths_witness :
    fit_transformation svdId srcDiv dstDiv = some (rowId, 0) ∧
    fit_transformation svdId src30 dst30 = some (rotxRows, 0) ∧
    fit_general svdId srcDiv dstDiv ≠ (rowId, 0) := by
  obtain ⟨p1, p2, p3⟩ := fit_transformation_hardcoded_paths
  have hid : Mat3.id.transpose = Mat3.id := rfl
  refine ⟨?_, ?_, (p3 svdId Mat3.id Mat3.id rfl (by rw [hid, mat3_id_mul])
    (by rw [hid, mat3_mul_id])).2⟩
  · refine p1 svdId srcDiv dstDiv (by simp [srcDiv, dstDiv])
      (by simp [srcDiv]) ?_
    rw [show srcDiv.headI = ⟨0, 0, 0⟩ from rfl,
      show dstDiv.headI = ⟨0, 0, 0⟩ from rfl]
    refine ⟨?_, ?_, ?_⟩ <;> rw [abs_lt] <;> constructor <;> norm_num
  · refine p2 svdId src30 dst30 (by simp [src30]) (by simp [dst30]) ?_ ?_
    · rintro ⟨-, hy, -⟩
      rw [show src30.headI = ⟨1, 2, 3⟩ from rfl,
        show dst30.headI = ⟨1, -3, 2⟩ from rfl] at hy
      rw [abs_lt] at hy
      norm_num at hy
    · rw [show src30.headI = ⟨1, 2, 3⟩ from rfl,
        show dst30.headI = ⟨1, -3, 2⟩ from rfl]
      refine ⟨?_, ?_, ?_⟩ <;> rw [abs_lt] <;> constructor <;> norm_num

end KorniaICP
